import Mathlib

set_option maxHeartbeats 1000000

/-!
Verification of the go-pam module-transaction core.

The definitions below are a shallow embedding of the module side of the
`pam` package: the error chain model used by `errors.As` / `errors.Is`
(`GoErr`), the module transaction state together with its mock native side
(`MTx`), the handler invoker (`invokeHandler`, from
`moduleTransaction.InvokeHandler`), the opaque data store
(`setDataImpl` / `getDataImpl` over the mock's `setData` / `getData`), the
conversation protocol (`startConvMultiImpl`, `startConvImpl`,
`startStringConvImpl`) and the caller-side start entry points
(`start`, `StartConfDir`).
-/

/-- `pam.ErrSystem` (`PAM_SYSTEM_ERR`) native code. -/
def ErrSystem : Int := 4

/-- `pam.ErrNoModuleData` (`PAM_NO_MODULE_DATA`) native code. -/
def ErrNoModuleData : Int := 18

/-- `pam.ErrConv` (`PAM_CONV_ERR`) native code. -/
def ErrConv : Int := 19

/-- `pam.ErrIgnore` (`PAM_IGNORE`) native code. -/
def ErrIgnore : Int := 25

/-- `maxNumMsg = C.PAM_MAX_NUM_MSG`, the fixed native limit on the number of
messages in one conversation call. -/
def maxNumMsg : Nat := 32

/-- Conversation style `PromptEchoOff` (`PAM_PROMPT_ECHO_OFF`). -/
def PromptEchoOff : Int := 1

/-- Conversation style `PromptEchoOn` (`PAM_PROMPT_ECHO_ON`). -/
def PromptEchoOn : Int := 2

/-- Conversation style `ErrorMsg` (`PAM_ERROR_MSG`). -/
def ErrorMsg : Int := 3

/-- Conversation style `TextInfo` (`PAM_TEXT_INFO`). -/
def TextInfo : Int := 4

/-- Conversation style `BinaryPrompt` (`PAM_BINARY_PROMPT`, the Linux-PAM
value). -/
def BinaryPrompt : Int := 7

/-- Shallow embedding of the Go error values built and inspected by the
transaction code: a native `pam.Error` code, a plain message error
(`errors.New` or `fmt.Errorf` with no `%w` verb), a `fmt.Errorf` wrap of a
single error with literal text around it, and a two-argument `errors.Join`
(the only arity the sources use). -/
inductive GoErr : Type where
  | pamError (code : Int)
  | errMsg (msg : String)
  | wrapf (pre : String) (inner : GoErr) (suf : String)
  | joined (left : GoErr) (right : GoErr)
deriving DecidableEq, Repr

/-- `errors.As(err, &pamErr)` with target type `pam.Error`: pre-order walk of
the error tree (a node first, then its unwrapped children in order, which for
`errors.Join` is left to right) returning the first native code found. -/
def GoErr.firstPamCode : GoErr → Option Int
  | .pamError c => some c
  | .errMsg _ => none
  | .wrapf _ e _ => e.firstPamCode
  | .joined a b =>
    match a.firstPamCode with
    | some c => some c
    | none => b.firstPamCode

/-- `errors.Is(err, pam.Error(t))`: whether the error chain contains the
native code `t`. -/
def GoErr.contains : GoErr → Int → Bool
  | .pamError c, t => c == t
  | .errMsg _, _ => false
  | .wrapf _ e _, t => e.contains t
  | .joined a b, t => a.contains t || b.contains t

/-- Modelled from the spec: the native message text produced by
`pam_strerror` for a code (the C function is outside the repository sources);
only the exact text is abstracted, not how messages compose. -/
def pamStrerror (code : Int) : String := "pam error " ++ toString code

/-- `err.Error()`: the rendered message of an error chain (`fmt.Errorf` glues
the literal text around the wrapped error's message; `errors.Join` renders
its children separated by a newline). -/
def GoErr.message : GoErr → String
  | .pamError c => pamStrerror c
  | .errMsg m => m
  | .wrapf pre e suf => pre ++ e.message ++ suf
  | .joined a b => a.message ++ "\n" ++ b.message

/-- The native conversation function registered on the session
(`conv.conv` invoked through `start_pam_conv`): one invocation takes the
marshalled `(style, prompt)` message array and yields the native return code
together with the textual contents of the returned `pam_response` array. -/
abbrev ConvFn : Type := List (Int × String) → Int × List String

/-- State of one module transaction together with its mock native side
(`mockModuleTransaction`): the status register (`transactionBase.lastStatus`),
the stored `Service` item, the registered conversation function (absent when
no conversation handler is installed), a counter of native conversation
invocations, the `cgo.Handle` registry (next fresh handle, starting above
zero, and the table of live handles), the per-session module-data table
mapping keys to handles (`mockModuleTransaction.moduleData`), the log of
`_go_pam_data_cleanup` invocations, and the mock's configured native return
status (`RetData.Status`). Stored module-data values have type `V`. -/
structure MTx (V : Type) : Type where
  lastStatus : Int
  serviceItem : String
  conv : Option ConvFn
  convCalls : Nat
  nextHandle : Nat
  handleTab : List (Nat × V)
  moduleData : List (String × Nat)
  cleanupLog : List Nat
  retStatus : Int

variable {V : Type}

/-- Modelled from the spec: `transactionBase.handlePamStatus` is not among the
sources (only its callers are); per the spec every operation records the
native return code in the Status Register and, on a non-success code, returns
it as a chainable error value. -/
def handlePamStatus (st : MTx V) (code : Int) : MTx V × Option GoErr :=
  ({ st with lastStatus := code }, if code == 0 then none else some (.pamError code))

/-- Modelled from the spec: the module-side `GetItem(Service)` (implemented in
the `transactionBase` code outside the sources) reads the stored service-name
item and, per the spec, records the (successful) native status of the lookup.
Its error is discarded at the call site (`service, _ := m.GetItem(Service)`). -/
def getItemService (st : MTx V) : MTx V × String :=
  ({ st with lastStatus := 0 }, st.serviceItem)

/-- A module handler (`ModuleHandlerFunc`): it receives the flags and the
argument vector, may act on the transaction, and returns the new state and an
optional error. -/
abbrev HandlerFn (V : Type) : Type := Int → List String → MTx V → MTx V × Option GoErr

/-- The `invoker` closure inside `InvokeHandler`: a nil handler yields
`ErrIgnore`; a handler error is classified via `errors.As` (falling back to
`ErrSystem` when no native code is extractable, with the local `pamErr`
keeping its zero value), and is propagated unchanged when the extracted code
is `ErrIgnore` or the service item is empty, else wrapped as
`"<service> failed: <err>"`. -/
def invokeHandlerBody (st : MTx V) (handler : Option (HandlerFn V)) (flags : Int)
    (args : List String) : MTx V × Option GoErr :=
  match handler with
  | none => (st, some (GoErr.pamError ErrIgnore))
  | some h =>
    match h flags args st with
    | (sth, none) => (sth, none)
    | (sth, some e) =>
      let (sts, service) := getItemService sth
      let code? := e.firstPamCode
      let e1 :=
        match code? with
        | none => GoErr.pamError ErrSystem
        | some _ => e
      let pamErr := code?.getD 0
      if pamErr == ErrIgnore || service == "" then (sts, some e1)
      else (sts, some (.wrapf (service ++ " failed: ") e1 ""))

/-- The tail of `InvokeHandler`: an error whose chain contains the success
code `Error(0)` is turned into a nil error; the remaining error is classified
(defaulting to `ErrSystem`) and the classification is stored in the status
register with `m.lastStatus.Store(status)`. -/
def recordInvokeStatus (p : MTx V × Option GoErr) : MTx V × Option GoErr :=
  let err2 :=
    match p.2 with
    | none => none
    | some e => if e.contains 0 then none else some e
  let status :=
    match err2 with
    | none => (0 : Int)
    | some e => e.firstPamCode.getD ErrSystem
  ({ p.1 with lastStatus := status }, err2)

/-- `moduleTransaction.InvokeHandler`. -/
def invokeHandler (st : MTx V) (handler : Option (HandlerFn V)) (flags : Int)
    (args : List String) : MTx V × Option GoErr :=
  recordInvokeStatus (invokeHandlerBody st handler flags args)

/-- If a chain contains the code `c`, some native code is extractable from it. -/
theorem firstPamCode_isSome_of_contains (e : GoErr) (c : Int)
    (h : e.contains c = true) : e.firstPamCode.isSome = true := by
  induction e with
  | pamError c' => simp [GoErr.firstPamCode]
  | errMsg m => simp [GoErr.contains] at h
  | wrapf pre e suf ih =>
    simp [GoErr.contains] at h
    simpa [GoErr.firstPamCode] using ih h
  | joined a b iha ihb =>
    simp [GoErr.contains] at h
    rcases h with h | h
    · have := iha h
      simp [GoErr.firstPamCode]
      cases hfc : a.firstPamCode with
      | none => simp [hfc] at this
      | some c' => simp
    · simp [GoErr.firstPamCode]
      cases hfc : a.firstPamCode with
      | none =>
        have := ihb h
        simpa [hfc] using this
      | some c' => simp

/-- The code extracted by `errors.As` is contained in the chain. -/
theorem contains_of_firstPamCode (e : GoErr) (c : Int)
    (h : e.firstPamCode = some c) : e.contains c = true := by
  induction e with
  | pamError c' =>
    simp [GoErr.firstPamCode] at h
    simp [GoErr.contains, h]
  | errMsg m => simp [GoErr.firstPamCode] at h
  | wrapf pre e suf ih =>
    simp [GoErr.firstPamCode] at h
    simpa [GoErr.contains] using ih h
  | joined a b iha ihb =>
    simp only [GoErr.firstPamCode] at h
    simp only [GoErr.contains, Bool.or_eq_true]
    cases hfc : a.firstPamCode with
    | none =>
      rw [hfc] at h
      exact Or.inr (ihb h)
    | some c' =>
      rw [hfc] at h
      simp only [Option.some.injEq] at h
      subst h
      exact Or.inl (iha hfc)

/-- A wrap keeps chain membership. -/
theorem wrapf_contains (pre suf : String) (e : GoErr) (c : Int) :
    (GoErr.wrapf pre e suf).contains c = e.contains c := rfl

/-- C2: every call to `InvokeHandler` leaves the status register holding
exactly the classification of the error it returns — the success (zero) code
when the returned error is nil, and otherwise the native code extracted from
the returned error's chain, with the generic `ErrSystem` code when no native
code is extractable; since this holds for every initial state, a later status
query reads that value even if a previous invocation had recorded a different
code. -/
theorem invokeHandler_status_register (st : MTx V) (handler : Option (HandlerFn V))
    (flags : Int) (args : List String) :
    (invokeHandler st handler flags args).1.lastStatus =
      match (invokeHandler st handler flags args).2 with
      | none => 0
      | some e => e.firstPamCode.getD ErrSystem := by
  unfold invokeHandler
  generalize invokeHandlerBody st handler flags args = p
  rcases p with ⟨st1, e?⟩
  cases e? with
  | none => rfl
  | some e => simp only [recordInvokeStatus]

/-- C1 (amended): the ignore exemption keyed on the extracted code. When the
handler's error's first extractable native code is `ErrIgnore` (and the chain
does not contain the success code, which would turn the error into nil), the
error is propagated unchanged — in particular no service prefix is added; when
the first extractable code is any other code and the service item is
non-empty, the returned error is the original wrapped as
`"<service> failed: <original>"` and its chain still contains that code. -/
theorem invokeHandler_ignore_exemption (st sth : MTx V) (h : HandlerFn V)
    (flags : Int) (args : List String) (e : GoErr)
    (hcall : h flags args st = (sth, some e)) (h0 : e.contains 0 = false) :
    (e.firstPamCode = some ErrIgnore →
      (invokeHandler st (some h) flags args).2 = some e) ∧
    (∀ c : Int, e.firstPamCode = some c → c ≠ ErrIgnore → sth.serviceItem ≠ "" →
      (invokeHandler st (some h) flags args).2 =
          some (.wrapf (sth.serviceItem ++ " failed: ") e "") ∧
        (GoErr.wrapf (sth.serviceItem ++ " failed: ") e "").message =
          sth.serviceItem ++ " failed: " ++ e.message ∧
        (GoErr.wrapf (sth.serviceItem ++ " failed: ") e "").contains c = true) := by
  constructor
  · intro hig
    simp only [invokeHandler, invokeHandlerBody, hcall, getItemService, hig,
      Option.getD_some]
    simp [recordInvokeStatus, h0, ErrIgnore]
  · intro c hc hne hsvc
    simp only [invokeHandler, invokeHandlerBody, hcall, getItemService, hc,
      Option.getD_some]
    have hb : (c == ErrIgnore) = false := by
      simp only [beq_eq_false_iff_ne, ne_eq]
      exact hne
    have hs : (sth.serviceItem == "") = false := by
      simp only [beq_eq_false_iff_ne, ne_eq]
      exact hsvc
    refine ⟨?_, ?_, ?_⟩
    · simp [hb, hs, recordInvokeStatus, GoErr.contains, h0]
    · simp [GoErr.message, String.append_assoc]
    · simpa [GoErr.contains] using contains_of_firstPamCode e c hc

/-- The handler error refuting C1 as stated: its chain contains the ignore
code, but `errors.As` finds the authentication-failure code `7` first, so the
exemption is not taken. -/
def cexIgnoreErr : GoErr := .joined (.pamError 7) (.pamError ErrIgnore)

/-- A module transaction state whose stored service item is `"login"`. -/
def stLogin : MTx Unit :=
  { lastStatus := 0, serviceItem := "login", conv := none, convCalls := 0,
    nextHandle := 1, handleTab := [], moduleData := [], cleanupLog := [],
    retStatus := 0 }

/-- A handler returning `cexIgnoreErr` without touching the transaction. -/
def cexHandler : HandlerFn Unit := fun _ _ s => (s, some cexIgnoreErr)

/-- C1 counterexample: a handler error whose chain contains the ignore code
but whose first extractable code is `7` is service-qualified — the returned
error message is `"login failed: "` followed by the original message, and the
extracted code of the result is `7`, not ignore — refuting the claim that any
error whose chain contains the ignore code propagates with code ignore and an
unqualified message. -/
theorem invokeHandler_ignore_chain_cex :
    cexIgnoreErr.contains ErrIgnore = true ∧
    (invokeHandler stLogin (some cexHandler) 0 []).2 =
      some (.wrapf "login failed: " cexIgnoreErr "") ∧
    (GoErr.wrapf "login failed: " cexIgnoreErr "").message =
      "login failed: " ++ cexIgnoreErr.message ∧
    ((invokeHandler stLogin (some cexHandler) 0 []).2.bind GoErr.firstPamCode) =
      some 7 := by
  refine ⟨by decide, by decide, ?_, by decide⟩
  simp [GoErr.message, String.append_assoc]

/-- A handler returning exactly the ignore error. -/
def wIgnoreHandler : HandlerFn Unit := fun _ _ s => (s, some (.pamError ErrIgnore))

/-- A handler returning exactly the authentication-failure error. -/
def wAuthHandler : HandlerFn Unit := fun _ _ s => (s, some (.pamError 7))

/-- Witness for the amended C1, at service `"login"`: a handler returning the
ignore code propagates it unchanged, and a handler returning code `7` gets the
`"login failed: "` qualification. -/
theorem invokeHandler_ignore_exemption_witness :
    (invokeHandler stLogin (some wIgnoreHandler) 0 []).2 =
      some (.pamError ErrIgnore) ∧
    (invokeHandler stLogin (some wAuthHandler) 0 []).2 =
      some (.wrapf "login failed: " (.pamError 7) "") := by
  constructor
  · exact (invokeHandler_ignore_exemption stLogin stLogin wIgnoreHandler 0 []
      (.pamError ErrIgnore) rfl (by decide)).1 (by decide)
  · exact ((invokeHandler_ignore_exemption stLogin stLogin wAuthHandler 0 []
      (.pamError 7) rfl (by decide)).2 7 (by decide) (by decide) (by decide)).1

/-- C9: a handler error whose chain contains the native success code makes
`InvokeHandler` return a nil error and record the success code, whatever the
service item (so even when the error was service-qualified first). -/
theorem invokeHandler_success_code_in_chain (st sth : MTx V) (h : HandlerFn V)
    (flags : Int) (args : List String) (e : GoErr)
    (hcall : h flags args st = (sth, some e)) (h0 : e.contains 0 = true) :
    (invokeHandler st (some h) flags args).2 = none ∧
    (invokeHandler st (some h) flags args).1.lastStatus = 0 := by
  have hsome := firstPamCode_isSome_of_contains e 0 h0
  simp only [invokeHandler, invokeHandlerBody, hcall, getItemService]
  cases hfc : e.firstPamCode with
  | none => rw [hfc] at hsome; simp at hsome
  | some c =>
    simp only [hfc, Option.getD_some]
    by_cases hcond : ((c == ErrIgnore) || (sth.serviceItem == "")) = true
    · simp [hcond, recordInvokeStatus, h0]
    · simp only [Bool.not_eq_true] at hcond
      simp [hcond, recordInvokeStatus, GoErr.contains, h0]

/-- A handler erring with the success code wrapped in a message. -/
def wSuccessHandler : HandlerFn Unit := fun _ _ s => (s, some (.pamError 0))

/-- Witness for C9: under service `"login"` a handler error carrying the
success code yields a nil error and a success status register. -/
theorem invokeHandler_success_code_in_chain_witness :
    (invokeHandler stLogin (some wSuccessHandler) 0 []).2 = none ∧
    (invokeHandler stLogin (some wSuccessHandler) 0 []).1.lastStatus = 0 :=
  invokeHandler_success_code_in_chain stLogin stLogin wSuccessHandler 0 []
    (.pamError 0) rfl (by decide)

/-- `cgo.NewHandle`: allocate a fresh boundary-safe token for a value and
install it in the registry. -/
def newHandle (st : MTx V) (v : V) : MTx V × Nat :=
  ({ st with nextHandle := st.nextHandle + 1,
             handleTab := (st.nextHandle, v) :: st.handleTab }, st.nextHandle)

/-- `cgo.Handle.Value`: dereference a token in the registry. -/
def handleValue (st : MTx V) (h : Nat) : Option V :=
  List.lookup h st.handleTab

/-- `_go_pam_data_cleanup`: the data-cleanup hook; it deletes the one token it
is given from the registry (`cgo.Handle.Delete`), whatever the native reason
code. The model additionally logs each invocation, so that "the hook fires
exactly once" is expressible. -/
def goPamDataCleanup (st : MTx V) (h : Nat) : MTx V :=
  { st with handleTab := st.handleTab.filter (fun p => p.1 != h),
            cleanupLog := st.cleanupLog ++ [h] }

/-- Go map assignment `m[k] = v` on the association-list model of
`moduleData`. -/
def assocSet : List (String × Nat) → String → Nat → List (String × Nat)
  | [], k, v => [(k, v)]
  | (k', v') :: rest, k, v =>
    if k' == k then (k, v) :: rest else (k', v') :: assocSet rest k v

/-- `mockModuleTransaction.setData`: when the key already holds a token,
release it through `_go_pam_data_cleanup` (reason `PAM_DATA_REPLACE`); then
install the new token when it is non-zero; return the mock's configured
native status. -/
def mockSetData (st : MTx V) (key : String) (handle : Nat) : MTx V × Int :=
  let st1 :=
    match List.lookup key st.moduleData with
    | some old => goPamDataCleanup st old
    | none => st
  let st2 :=
    if handle != 0 then { st1 with moduleData := assocSet st1.moduleData key handle }
    else st1
  (st2, st.retStatus)

/-- `mockModuleTransaction.getData`: report the token installed for the key
(zero when none is) and the mock's configured native status. -/
def mockGetData (st : MTx V) (key : String) : MTx V × Nat × Int :=
  (st, (List.lookup key st.moduleData).getD 0, st.retStatus)

/-- `moduleTransaction.setDataImpl`: allocate a token for a non-nil value
(zero stands for nil), hand it to the native `set_data`, and classify the
returned status. -/
def setDataImpl (st : MTx V) (key : String) (data : Option V) : MTx V × Option GoErr :=
  let (st1, handle) :=
    match data with
    | some v => newHandle st v
    | none => (st, 0)
  let (st2, ret) := mockSetData st1 key handle
  handlePamStatus st2 ret

/-- `moduleTransaction.getDataImpl`: fetch the key's token through the native
`get_data`; on a non-success status propagate the classified error; on a zero
token fail with `ErrNoModuleData`; else dereference the token (a dereference
of a dead token, which panics in Go, is modelled as `none`). -/
def getDataImpl (st : MTx V) (key : String) : MTx V × Option V × Option GoErr :=
  let (st1, handle, ret) := mockGetData st key
  match handlePamStatus st1 ret with
  | (st2, some e) => (st2, none, some e)
  | (st2, none) =>
    if handle != 0 then (st2, handleValue st2 handle, none)
    else
      let (st3, e) := handlePamStatus st2 ErrNoModuleData
      (st3, none, e)

/-- Looking up the key just assigned in the map model finds the new token. -/
theorem lookup_assocSet_self (l : List (String × Nat)) (k : String) (v : Nat) :
    List.lookup k (assocSet l k v) = some v := by
  induction l with
  | nil => simp [assocSet, List.lookup]
  | cons p rest ih =>
    rcases p with ⟨k', v'⟩
    cases hk : (k' == k) with
    | true => simp [assocSet, hk, List.lookup]
    | false =>
      have hk' : (k == k') = false := by
        simp only [beq_eq_false_iff_ne, ne_eq] at hk ⊢
        exact fun hkk => hk hkk.symm
      simp [assocSet, hk, List.lookup, hk', ih]

/-- A successful association-list lookup exhibits a member. -/
theorem mem_of_lookup_eq_some (l : List (String × Nat)) (k : String) (b : Nat)
    (h : List.lookup k l = some b) : (k, b) ∈ l := by
  induction l with
  | nil => simp [List.lookup] at h
  | cons p rest ih =>
    rcases p with ⟨k', b'⟩
    cases hk : (k == k') with
    | true =>
      simp only [List.lookup, hk, Option.some.injEq] at h
      have : k = k' := by simpa using hk
      subst this
      subst h
      exact List.mem_cons_self _ _
    | false =>
      simp only [List.lookup, hk] at h
      exact List.mem_cons_of_mem _ (ih h)

/-- C4: from any well-formed state whose native set/get status is success,
`SetData(k, v)` followed by `GetData(k)` returns `v` with no error; a second
`SetData(k, v₂)` followed by `GetData(k)` returns `v₂`; the intermediate get
fires no cleanup, the replacement appends exactly one cleanup of the first
value's token, and that token had not been cleaned up before the
replacement. -/
theorem setData_getData_roundtrip (st : MTx V) (k : String) (v v₂ : V)
    (hret : st.retStatus = 0) (hpos : st.nextHandle ≠ 0)
    (hmd : ∀ p ∈ st.moduleData, p.2 < st.nextHandle)
    (hlog : st.nextHandle ∉ st.cleanupLog) :
    (setDataImpl st k (some v)).2 = none ∧
    (getDataImpl (setDataImpl st k (some v)).1 k).2.1 = some v ∧
    (getDataImpl (setDataImpl st k (some v)).1 k).2.2 = none ∧
    (setDataImpl (getDataImpl (setDataImpl st k (some v)).1 k).1 k (some v₂)).2 =
      none ∧
    (getDataImpl
      (setDataImpl (getDataImpl (setDataImpl st k (some v)).1 k).1 k
        (some v₂)).1 k).2.1 = some v₂ ∧
    (getDataImpl
      (setDataImpl (getDataImpl (setDataImpl st k (some v)).1 k).1 k
        (some v₂)).1 k).2.2 = none ∧
    (getDataImpl (setDataImpl st k (some v)).1 k).1.cleanupLog =
      (setDataImpl st k (some v)).1.cleanupLog ∧
    (setDataImpl (getDataImpl (setDataImpl st k (some v)).1 k).1 k
        (some v₂)).1.cleanupLog =
      (setDataImpl st k (some v)).1.cleanupLog ++ [st.nextHandle] ∧
    st.nextHandle ∉ (setDataImpl st k (some v)).1.cleanupLog := by
  have hnh1 : (st.nextHandle != 0) = true := by simpa [bne_iff_ne] using hpos
  have hnh2 : ((st.nextHandle + 1 : Nat) != 0) = true := by simp
  cases hmd0 : List.lookup k st.moduleData with
  | none =>
    simp [setDataImpl, getDataImpl, newHandle, mockSetData, mockGetData,
      handlePamStatus, handleValue, goPamDataCleanup, hmd0, hret, hnh1, hnh2,
      lookup_assocSet_self, List.lookup, hlog]
  | some h0 =>
    have hlt : h0 < st.nextHandle := hmd (k, h0) (mem_of_lookup_eq_some _ _ _ hmd0)
    have hne : (st.nextHandle != h0) = true := by
      simp only [bne_iff_ne, ne_eq]
      omega
    have hne1 : ((st.nextHandle + 1 : Nat) != st.nextHandle) = true := by
      simp only [bne_iff_ne, ne_eq]
      omega
    have hne2 : st.nextHandle ≠ h0 := by omega
    simp [setDataImpl, getDataImpl, newHandle, mockSetData, mockGetData,
      handlePamStatus, handleValue, goPamDataCleanup, hmd0, hret, hnh1, hnh2,
      hne, hne1, lookup_assocSet_self, List.lookup, hlog, hne2]

/-- A fresh mock module transaction storing `Nat` values. -/
def stFresh : MTx Nat :=
  { lastStatus := 0, serviceItem := "", conv := none, convCalls := 0,
    nextHandle := 1, handleTab := [], moduleData := [], cleanupLog := [],
    retStatus := 0 }

/-- Witness for C4 at key `"k"` with values `10` then `20` from a fresh
state: both gets return the stored value and the replacement logs exactly one
cleanup of the first token. -/
theorem setData_getData_roundtrip_witness :
    (getDataImpl (setDataImpl stFresh "k" (some 10)).1 "k").2.1 = some 10 ∧
    (getDataImpl
      (setDataImpl (getDataImpl (setDataImpl stFresh "k" (some 10)).1 "k").1 "k"
        (some 20)).1 "k").2.1 = some 20 ∧
    (setDataImpl (getDataImpl (setDataImpl stFresh "k" (some 10)).1 "k").1 "k"
        (some 20)).1.cleanupLog =
      (setDataImpl stFresh "k" (some 10)).1.cleanupLog ++ [stFresh.nextHandle] ∧
    stFresh.nextHandle ∉ (setDataImpl stFresh "k" (some 10)).1.cleanupLog := by
  have h := setData_getData_roundtrip stFresh "k" 10 20 rfl (by decide)
    (by intro p hp; simp [stFresh] at hp) (by decide)
  exact ⟨h.2.1, h.2.2.2.2.1, h.2.2.2.2.2.2.2.1, h.2.2.2.2.2.2.2.2⟩

/-- A conversation request (`ConvRequest`): the sources define
`StringConvRequest`; any other implementation of the open `ConvRequest`
interface reaches the marshalling loop's default branch and is modelled by
`unsupported`. -/
inductive ConvRequest : Type where
  | stringReq (style : Int) (prompt : String)
  | unsupported (style : Int)
deriving DecidableEq, Repr

/-- `ConvRequest.Style()`. -/
def ConvRequest.style : ConvRequest → Int
  | .stringReq s _ => s
  | .unsupported s => s

/-- A textual conversation response (`stringConvResponse`), carrying the
style and the response text. -/
structure StringConvResponse : Type where
  style : Int
  response : String
deriving DecidableEq, Repr

/-- The request-marshalling loop of `startConvMultiImpl`: each
`StringConvRequest` becomes a native `(msg_style, msg)` record; the first
request of any other type aborts with the loop's `unsupported conversation
type` error. -/
def marshalRequests : List ConvRequest → Except GoErr (List (Int × String))
  | [] => .ok []
  | .stringReq style prompt :: rest =>
    match marshalRequests rest with
    | .ok msgs => .ok ((style, prompt) :: msgs)
    | .error e => .error e
  | .unsupported _ :: _ => .error (.errMsg "unsupported conversation type")

/-- Whether a style is one of the four textual styles accepted when
demarshalling responses. -/
def validTextStyle (style : Int) : Bool :=
  style == PromptEchoOff || style == PromptEchoOn || style == ErrorMsg ||
    style == TextInfo

/-- The response walk of `startConvMultiImpl`: position `i` of the native
response array is typed with the `i`-th *request's* style; the four textual
styles build a `stringConvResponse` from the native text; any other style
aborts with the walk's `unsupported conversation type` error. A native
response entry beyond the returned texts reads as the empty string. -/
def buildResponses : List ConvRequest → List String → Except GoErr (List StringConvResponse)
  | [], _ => .ok []
  | req :: rest, resps =>
    if validTextStyle req.style then
      match buildResponses rest resps.tail with
      | .ok rs => .ok (⟨req.style, resps.headD ""⟩ :: rs)
      | .error e => .error e
    else .error (.errMsg ("unsupported conversation type " ++ toString req.style))

/-- `moduleTransaction.getConv` as realized by the mock
(`mockModuleTransaction.getConv`): the registered conversation function when
one is installed, else the mock's configured error status, else no
conversation at all. -/
def getConv (st : MTx V) : MTx V × Option ConvFn × Option GoErr :=
  match st.conv with
  | some f => (st, some f, none)
  | none =>
    if st.retStatus != 0 then (st, none, some (.pamError st.retStatus))
    else (st, none, none)

/-- The body of `startConvMultiImpl` (everything but the deferred status
recording): validate the batch size, fetch the conversation function, fail
when it is absent, marshal the requests, perform the single native
conversation round trip (counted in `convCalls`), classify a non-success
native return, and on success demarshal the responses positionally. -/
def startConvMultiCore (st : MTx V) (requests : List ConvRequest) :
    MTx V × Option (List StringConvResponse) × Option GoErr :=
  if requests.length == 0 then (st, none, some (.errMsg "no requests defined"))
  else if maxNumMsg < requests.length then
    (st, none, some (.errMsg "too many requests"))
  else
    match getConv st with
    | (st1, _, some e) => (st1, none, some e)
    | (st1, conv?, none) =>
      match conv? with
      | none => (st1, none, some (.errMsg "impossible to find conv handler"))
      | some f =>
        match marshalRequests requests with
        | .error e => (st1, none, some e)
        | .ok msgs =>
          let st2 := { st1 with convCalls := st1.convCalls + 1 }
          let (ret, resps) := f msgs
          if ret != 0 then (st2, none, some (.pamError ret))
          else
            match buildResponses requests resps with
            | .error e => (st2, none, some e)
            | .ok rs => (st2, some rs, none)

/-- `moduleTransaction.startConvMultiImpl`: the body above wrapped in the
deferred epilogue, which records the success code when no error is being
returned and otherwise classifies the error — joining in `ErrConv` when no
native code is extractable from it — and records the classified code. -/
def startConvMultiImpl (st : MTx V) (requests : List ConvRequest) :
    MTx V × Option (List StringConvResponse) × Option GoErr :=
  match startConvMultiCore st requests with
  | (st1, resp?, none) => ({ st1 with lastStatus := 0 }, resp?, none)
  | (st1, resp?, some e) =>
    match e.firstPamCode with
    | some c => ({ st1 with lastStatus := c }, resp?, some e)
    | none =>
      ({ st1 with lastStatus := ErrConv }, resp?,
        some (.joined (.pamError ErrConv) e))

/-- `moduleTransaction.startConvImpl`: the single-request wrapper, which
requires the batch to produce exactly one response. -/
def startConvImpl (st : MTx V) (req : ConvRequest) :
    MTx V × Option StringConvResponse × Option GoErr :=
  match startConvMultiImpl st [req] with
  | (st1, _, some e) => (st1, none, some e)
  | (st1, resp?, none) =>
    let resp := resp?.getD []
    if resp.length == 1 then (st1, resp.head?, none)
    else (st1, none, some (.wrapf "" (.pamError ErrConv) ": not enough values returned"))

/-- `moduleTransaction.startStringConvImpl`: reject the binary style before
entering the batch path, else run the single-request conversation (the
result's type assertion to `stringConvResponse` always succeeds in the
model, as in the sources' success paths). -/
def startStringConvImpl (st : MTx V) (style : Int) (prompt : String) :
    MTx V × Option StringConvResponse × Option GoErr :=
  if style == BinaryPrompt then
    (st, none, some (.wrapf "" (.pamError ErrConv) ": binary style is not supported"))
  else
    startConvImpl st (.stringReq style prompt)

/-- `moduleTransaction.StartStringConvf`: formats the prompt and delegates to
`StartStringConv`; the formatting (`fmt.Sprintf`) is modelled by passing the
already-formatted string. -/
def startStringConvf (st : MTx V) (style : Int) (formatted : String) :
    MTx V × Option StringConvResponse × Option GoErr :=
  startStringConvImpl st style formatted

/-- C5: an empty batch, and a batch larger than the native maximum, both fail
with no responses and without the native conversation function ever being
invoked. -/
theorem startConvMulti_validates_size (st : MTx V) (requests : List ConvRequest)
    (h : requests = [] ∨ maxNumMsg < requests.length) :
    (startConvMultiImpl st requests).2.2.isSome = true ∧
    (startConvMultiImpl st requests).2.1 = none ∧
    (startConvMultiImpl st requests).1.convCalls = st.convCalls := by
  rcases h with h | h
  · subst h
    simp [startConvMultiImpl, startConvMultiCore, GoErr.firstPamCode]
  · have h0 : (requests.length == 0) = false := by
      simp only [beq_eq_false_iff_ne, ne_eq]
      omega
    simp [startConvMultiImpl, startConvMultiCore, h0, h, GoErr.firstPamCode]

/-- Witness for C5: the empty batch from a fresh state errs, yields no
responses and leaves the conversation-call counter at zero. -/
theorem startConvMulti_validates_size_witness :
    (startConvMultiImpl stFresh ([] : List ConvRequest)).2.2.isSome = true ∧
    (startConvMultiImpl stFresh ([] : List ConvRequest)).2.1 = none ∧
    (startConvMultiImpl stFresh ([] : List ConvRequest)).1.convCalls =
      stFresh.convCalls :=
  startConvMulti_validates_size stFresh [] (Or.inl rfl)

/-- C3: when the batch passes validation and marshalling and the native
conversation function returns a non-success code, the call fails with exactly
that classified code, records it, and returns no responses at all. -/
theorem startConvMulti_native_failure_atomic (st : MTx V)
    (requests : List ConvRequest) (f : ConvFn) (msgs : List (Int × String))
    (hconv : st.conv = some f) (hne : requests ≠ [])
    (hlen : requests.length ≤ maxNumMsg)
    (hm : marshalRequests requests = .ok msgs) (hret : (f msgs).1 ≠ 0) :
    (startConvMultiImpl st requests).2.2 = some (.pamError (f msgs).1) ∧
    (startConvMultiImpl st requests).2.1 = none ∧
    (startConvMultiImpl st requests).1.lastStatus = (f msgs).1 := by
  have h0 : (requests.length == 0) = false := by
    simp only [beq_eq_false_iff_ne, ne_eq, List.length_eq_zero]
    exact hne
  have h1 : ¬ maxNumMsg < requests.length := by omega
  rcases hfm : f msgs with ⟨ret, resps⟩
  rw [hfm] at hret
  simp only at hret
  have h2 : (ret != 0) = true := by simpa [bne_iff_ne] using hret
  simp [startConvMultiImpl, startConvMultiCore, getConv, hconv, h0, h1, hm,
    hfm, h2, GoErr.firstPamCode]

/-- A mock transaction whose conversation function fails with code `7`. -/
def stConvFail : MTx Nat :=
  { lastStatus := 0, serviceItem := "", conv := some (fun _ => (7, [])),
    convCalls := 0, nextHandle := 1, handleTab := [], moduleData := [],
    cleanupLog := [], retStatus := 0 }

/-- Witness for C3: a one-request batch against a native conversation failing
with code `7` returns exactly that code, no responses, and records `7`. -/
theorem startConvMulti_native_failure_atomic_witness :
    (startConvMultiImpl stConvFail [ConvRequest.stringReq 2 "Username: "]).2.2 =
      some (.pamError 7) ∧
    (startConvMultiImpl stConvFail [ConvRequest.stringReq 2 "Username: "]).2.1 =
      none ∧
    (startConvMultiImpl stConvFail
      [ConvRequest.stringReq 2 "Username: "]).1.lastStatus = 7 := by
  simpa using startConvMulti_native_failure_atomic stConvFail
    [ConvRequest.stringReq 2 "Username: "] (fun _ => (7, []))
    [(2, "Username: ")] rfl (by decide) (by decide) rfl (by decide)

/-- Indexing the tail shifts the index by one (with the same default). -/
theorem tail_getD (l : List String) (n : Nat) :
    l.tail.getD n "" = l.getD (n + 1) "" := by
  cases l <;> simp

/-- When every request style is textual, the response walk succeeds and the
entry at each position carries that position's request style and that
position's native response text. -/
theorem buildResponses_ok (l : List ConvRequest) (resps : List String)
    (h : ∀ r ∈ l, validTextStyle r.style = true) :
    ∃ rs, buildResponses l resps = .ok rs ∧ rs.length = l.length ∧
      ∀ i, i < l.length →
        rs.getD i ⟨0, ""⟩ =
          ⟨(l.getD i (.stringReq 0 "")).style, resps.getD i ""⟩ := by
  induction l generalizing resps with
  | nil =>
    refine ⟨[], rfl, rfl, ?_⟩
    intro i hi
    simp at hi
  | cons r rest ih =>
    have hr := h r (List.mem_cons_self _ _)
    obtain ⟨rs, hok, hlen, hget⟩ :=
      ih resps.tail (fun x hx => h x (List.mem_cons_of_mem _ hx))
    refine ⟨⟨r.style, resps.headD ""⟩ :: rs, ?_, ?_, ?_⟩
    · simp [buildResponses, hr, hok]
    · simp [hlen]
    · intro i hi
      cases i with
      | zero => cases resps <;> simp
      | succ n =>
        have hn : n < rest.length := by
          simpa using hi
        have hg := hget n hn
        rw [tail_getD] at hg
        simpa using hg

/-- When some request style is not textual, the response walk fails with the
walk's plain (non-native) error. -/
theorem buildResponses_err (l : List ConvRequest) (resps : List String)
    (h : ∃ r ∈ l, validTextStyle r.style = false) :
    ∃ s, buildResponses l resps = .error (.errMsg s) := by
  induction l generalizing resps with
  | nil => simp at h
  | cons r rest ih =>
    by_cases hr : validTextStyle r.style = true
    · have hrest : ∃ x ∈ rest, validTextStyle x.style = false := by
        rcases h with ⟨x, hx, hvx⟩
        rcases List.mem_cons.1 hx with hx | hx
        · subst hx
          rw [hr] at hvx
          cases hvx
        · exact ⟨x, hx, hvx⟩
      obtain ⟨s, hs⟩ := ih resps.tail hrest
      exact ⟨s, by simp [buildResponses, hr, hs]⟩
    · have hr' : validTextStyle r.style = false := by
        simpa using hr
      refine ⟨"unsupported conversation type " ++ toString r.style, ?_⟩
      simp [buildResponses, hr']

/-- C6: on a successful native round trip, when every request style is one of
the four textual styles the call succeeds and the response at each ordinal
position carries exactly that position's request style (nothing from the
native side determines it) together with that position's native text; when
some request's style is any other value the call fails with an error carrying
the `ErrConv` code, records `ErrConv`, and returns no responses. -/
theorem startConvMulti_positional_styles (st : MTx V)
    (requests : List ConvRequest) (f : ConvFn) (msgs : List (Int × String))
    (hconv : st.conv = some f) (hne : requests ≠ [])
    (hlen : requests.length ≤ maxNumMsg)
    (hm : marshalRequests requests = .ok msgs) (hok : (f msgs).1 = 0) :
    ((∀ r ∈ requests, validTextStyle r.style = true) →
      ∃ rs, (startConvMultiImpl st requests).2.1 = some rs ∧
        (startConvMultiImpl st requests).2.2 = none ∧
        rs.length = requests.length ∧
        ∀ i, i < requests.length →
          rs.getD i ⟨0, ""⟩ =
            ⟨(requests.getD i (.stringReq 0 "")).style,
              (f msgs).2.getD i ""⟩) ∧
    ((∃ r ∈ requests, validTextStyle r.style = false) →
      (startConvMultiImpl st requests).2.1 = none ∧
      ∃ e, (startConvMultiImpl st requests).2.2 = some e ∧
        e.contains ErrConv = true ∧
        (startConvMultiImpl st requests).1.lastStatus = ErrConv) := by
  have h0 : (requests.length == 0) = false := by
    simp only [beq_eq_false_iff_ne, ne_eq, List.length_eq_zero]
    exact hne
  have h1 : ¬ maxNumMsg < requests.length := by omega
  rcases hfm : f msgs with ⟨ret, resps⟩
  rw [hfm] at hok
  simp only at hok
  subst hok
  constructor
  · intro hall
    obtain ⟨rs, hbr, hlen', hget⟩ := buildResponses_ok requests resps hall
    refine ⟨rs, ?_, ?_, hlen', ?_⟩
    · simp [startConvMultiImpl, startConvMultiCore, getConv, hconv, h0, h1,
        hm, hfm, hbr]
    · simp [startConvMultiImpl, startConvMultiCore, getConv, hconv, h0, h1,
        hm, hfm, hbr]
    · intro i hi
      have := hget i hi
      simpa [hfm] using this
  · intro hsome
    obtain ⟨s, hbr⟩ := buildResponses_err requests resps hsome
    refine ⟨?_, ⟨.joined (.pamError ErrConv) (.errMsg s), ?_, ?_, ?_⟩⟩ <;>
      simp [startConvMultiImpl, startConvMultiCore, getConv, hconv, h0, h1,
        hm, hfm, hbr, GoErr.firstPamCode, GoErr.contains]

/-- A mock transaction whose conversation function succeeds, answering
`"alice"`. -/
def stConvOk : MTx Nat :=
  { lastStatus := 0, serviceItem := "", conv := some (fun _ => (0, ["alice"])),
    convCalls := 0, nextHandle := 1, handleTab := [], moduleData := [],
    cleanupLog := [], retStatus := 0 }

/-- Witness for C6: an echo-on request against a successful native
conversation yields a single response with the request's style and the
native text, and no error. -/
theorem startConvMulti_positional_styles_witness :
    ((startConvMultiImpl stConvOk
        [ConvRequest.stringReq 2 "Username: "]).2.1.getD []).getD 0 ⟨0, ""⟩ =
      ⟨2, "alice"⟩ ∧
    (startConvMultiImpl stConvOk [ConvRequest.stringReq 2 "Username: "]).2.2 =
      none := by
  obtain ⟨rs, h1, h2, h3, h4⟩ :=
    (startConvMulti_positional_styles stConvOk
      [ConvRequest.stringReq 2 "Username: "] (fun _ => (0, ["alice"]))
      [(2, "Username: ")] rfl (by decide) (by decide) rfl rfl).1
      (by decide)
  refine ⟨?_, h2⟩
  rw [h1]
  simpa using h4 0 (by decide)

/-- In the conversation body, a produced response list and an absent error
coincide on every path. -/
theorem startConvMultiCore_resp_iff_err (st : MTx V)
    (requests : List ConvRequest) :
    (startConvMultiCore st requests).2.2 = none ↔
      ((startConvMultiCore st requests).2.1).isSome = true := by
  by_cases h0 : (requests.length == 0) = true
  · simp [startConvMultiCore, h0]
  · have h0' : (requests.length == 0) = false := by simpa using h0
    by_cases h1 : maxNumMsg < requests.length
    · simp [startConvMultiCore, h0', h1]
    · cases hc : st.conv with
      | none =>
        by_cases hr : (st.retStatus != 0) = true
        · simp [startConvMultiCore, getConv, h0', h1, hc, hr]
        · have hr' : (st.retStatus != 0) = false := by simpa using hr
          simp [startConvMultiCore, getConv, h0', h1, hc, hr']
      | some f =>
        cases hm : marshalRequests requests with
        | error e => simp [startConvMultiCore, getConv, h0', h1, hc, hm]
        | ok msgs =>
          rcases hfm : f msgs with ⟨ret, resps⟩
          by_cases hret : (ret != 0) = true
          · simp [startConvMultiCore, getConv, h0', h1, hc, hm, hfm, hret]
          · have hret' : (ret != 0) = false := by simpa using hret
            cases hbr : buildResponses requests resps with
            | error e =>
              simp [startConvMultiCore, getConv, h0', h1, hc, hm, hfm, hret',
                hbr]
            | ok rs =>
              simp [startConvMultiCore, getConv, h0', h1, hc, hm, hfm, hret',
                hbr]

/-- The deferred epilogue records exactly the classification of the error the
call returns, defaulting to `ErrConv`. -/
theorem startConvMultiImpl_records_classification (st : MTx V)
    (requests : List ConvRequest) :
    (startConvMultiImpl st requests).1.lastStatus =
      match (startConvMultiImpl st requests).2.2 with
      | none => 0
      | some e => e.firstPamCode.getD ErrConv := by
  unfold startConvMultiImpl
  generalize startConvMultiCore st requests = p
  rcases p with ⟨st1, resp?, e?⟩
  cases e? with
  | none => rfl
  | some e =>
    cases hfc : e.firstPamCode with
    | some c => simp [hfc]
    | none => simp [hfc, GoErr.firstPamCode]

/-- C10: every exit path of the conversation call records a status — the
success code exactly when a response slice is returned, and otherwise the
classified error code with `ErrConv` as the default when the error carries no
native code; the validation failures (empty batch, oversized batch, missing
conversation function) record `ErrConv` without any native conversation
call. -/
theorem startConvMulti_status_every_path (st : MTx V)
    (requests : List ConvRequest) :
    ((startConvMultiImpl st requests).2.2 = none ↔
      ((startConvMultiImpl st requests).2.1).isSome = true) ∧
    ((startConvMultiImpl st requests).1.lastStatus =
      match (startConvMultiImpl st requests).2.2 with
      | none => 0
      | some e => e.firstPamCode.getD ErrConv) ∧
    ((requests = [] ∨ maxNumMsg < requests.length ∨
        (st.conv = none ∧ st.retStatus = 0)) →
      (startConvMultiImpl st requests).1.convCalls = st.convCalls ∧
      (startConvMultiImpl st requests).1.lastStatus = ErrConv) := by
  refine ⟨?_, startConvMultiImpl_records_classification st requests, ?_⟩
  · have hcore := startConvMultiCore_resp_iff_err st requests
    unfold startConvMultiImpl
    revert hcore
    generalize startConvMultiCore st requests = p
    rcases p with ⟨st1, resp?, e?⟩
    intro hcore
    cases e? with
    | none => simpa using hcore
    | some e =>
      cases hfc : e.firstPamCode with
      | some c => simpa [hfc] using hcore
      | none => simpa [hfc] using hcore
  · intro h
    rcases h with h | h | h
    · subst h
      simp [startConvMultiImpl, startConvMultiCore, GoErr.firstPamCode]
    · have h0 : (requests.length == 0) = false := by
        simp only [beq_eq_false_iff_ne, ne_eq]
        omega
      simp [startConvMultiImpl, startConvMultiCore, h0, h, GoErr.firstPamCode]
    · rcases h with ⟨hc, hr⟩
      by_cases h0 : (requests.length == 0) = true
      · simp [startConvMultiImpl, startConvMultiCore, h0, GoErr.firstPamCode]
      · have h0' : (requests.length == 0) = false := by simpa using h0
        by_cases h1 : maxNumMsg < requests.length
        · simp [startConvMultiImpl, startConvMultiCore, h0', h1,
            GoErr.firstPamCode]
        · have hr' : (st.retStatus != 0) = false := by simp [hr]
          simp [startConvMultiImpl, startConvMultiCore, getConv, h0', h1, hc,
            hr', GoErr.firstPamCode]

/-- Witness for C10: the empty batch from a fresh state records `ErrConv` and
performs no native conversation call. -/
theorem startConvMulti_status_every_path_witness :
    (startConvMultiImpl stFresh ([] : List ConvRequest)).1.lastStatus =
      ErrConv ∧
    (startConvMultiImpl stFresh ([] : List ConvRequest)).1.convCalls = 0 := by
  have h := (startConvMulti_status_every_path stFresh []).2.2 (Or.inl rfl)
  exact ⟨h.2, h.1.trans rfl⟩

/-- C8: the string-only conversation entry points reject the binary style
before entering the batch path — whatever the state (so whatever the
registered conversation handler), the result is an untouched transaction, no
response, and an error wrapping the `ErrConv` code. -/
theorem startStringConv_rejects_binary (st : MTx V) (style : Int)
    (prompt fmtStr : String) (h : style = BinaryPrompt) :
    startStringConvImpl st style prompt =
      (st, none,
        some (.wrapf "" (.pamError ErrConv) ": binary style is not supported")) ∧
    (GoErr.wrapf "" (.pamError ErrConv)
        ": binary style is not supported").contains ErrConv = true ∧
    startStringConvf st style fmtStr =
      (st, none,
        some (.wrapf "" (.pamError ErrConv) ": binary style is not supported")) := by
  subst h
  refine ⟨?_, by decide, ?_⟩ <;> simp [startStringConvImpl, startStringConvf]

/-- Witness for C8: requesting the binary style through the string entry
point on a state with a working conversation handler still fails with the
conversation-error wrap. -/
theorem startStringConv_rejects_binary_witness :
    startStringConvImpl stConvOk 7 "Password: " =
      (stConvOk, none,
        some (.wrapf "" (.pamError ErrConv) ": binary style is not supported")) :=
  (startStringConv_rejects_binary stConvOk 7 "Password: " "formatted" rfl).1

/-- `TransactionError`: a descriptive cause paired with a native return code
(`Status()` exposes the code; the cause text of an error built from a failed
native start renders the transaction's status and is abstracted as empty). -/
structure TransactionError : Type where
  msg : String
  status : Int
deriving DecidableEq, Repr

/-- A caller-side transaction created by a successful native start, recording
the start call's native status. -/
structure AppTransaction : Type where
  status : Int
deriving DecidableEq, Repr

/-- The classified code of a failed start result. -/
def startErrStatus (r : Except TransactionError AppTransaction) : Option Int :=
  match r with
  | .error e => some e.status
  | .ok _ => none

/-- The caller-side `start`: when the handler implements
`BinaryConversationHandler` but the platform lacks the binary-message
extension (`CheckPamHasBinaryProtocol`), fail with a `SystemErr`-classified
`TransactionError` before any native call; otherwise perform the native start
(`pam_start` or `pam_start_confdir`, modelled as one function of service,
user and configuration directory) and classify its status. The boolean in
the result records whether the native start was attempted. -/
def start (binarySupported handlerBinary : Bool) (service user confDir : String)
    (nativeStart : String → String → String → Int) :
    Except TransactionError AppTransaction × Bool :=
  if handlerBinary && !binarySupported then
    (.error ⟨"BinaryConversationHandler() was used, but it is not supported by this platform",
      ErrSystem⟩, false)
  else
    let status := nativeStart service user confDir
    if status != 0 then (.error ⟨"", status⟩, true)
    else (.ok ⟨status⟩, true)

/-- `StartConfDir`: fail with a `SystemErr`-classified error when the
installed framework lacks `pam_start_confdir`
(`CheckPamHasStartConfdir`), else delegate to `start`. -/
def StartConfDir (confdirSupported binarySupported handlerBinary : Bool)
    (service user confDir : String)
    (nativeStart : String → String → String → Int) :
    Except TransactionError AppTransaction × Bool :=
  if !confdirSupported then
    (.error ⟨"StartConfDir() was used, but the pam version on the system is not recent enough",
      ErrSystem⟩, false)
  else start binarySupported handlerBinary service user confDir nativeStart

/-- `Start`: the entry point without a configuration-directory override. -/
def Start (binarySupported handlerBinary : Bool) (service user : String)
    (nativeStart : String → String → String → Int) :
    Except TransactionError AppTransaction × Bool :=
  start binarySupported handlerBinary service user "" nativeStart

/-- C7: for every service, user and native start function, a handler with the
binary-conversation capability on a platform without the binary-message
extension makes `Start` — and `StartConfDir`, whether or not the framework
supports the directory override — fail with the `ErrSystem` classification,
with the native start never attempted and hence no transaction created. -/
theorem start_binary_unsupported_fails_fast (binarySupported confdirSupported
    handlerBinary : Bool) (service user confDir : String)
    (nativeStart : String → String → String → Int)
    (hb : handlerBinary = true) (hs : binarySupported = false) :
    startErrStatus
        (Start binarySupported handlerBinary service user nativeStart).1 =
      some ErrSystem ∧
    (Start binarySupported handlerBinary service user nativeStart).2 = false ∧
    startErrStatus
        (StartConfDir confdirSupported binarySupported handlerBinary service
          user confDir nativeStart).1 = some ErrSystem ∧
    (StartConfDir confdirSupported binarySupported handlerBinary service user
        confDir nativeStart).2 = false := by
  subst hb hs
  cases confdirSupported <;>
    simp [Start, StartConfDir, start, startErrStatus]

/-- Witness for C7: a binary-capable handler on a platform without the binary
extension is rejected with the system-error code and the native start is
never reached. -/
theorem start_binary_unsupported_fails_fast_witness :
    startErrStatus (Start false true "login" "user" (fun _ _ _ => 0)).1 =
      some ErrSystem ∧
    (Start false true "login" "user" (fun _ _ _ => 0)).2 = false :=
  ⟨(start_binary_unsupported_fails_fast false true true "login" "user" "/etc"
      (fun _ _ _ => 0) rfl rfl).1,
    (start_binary_unsupported_fails_fast false true true "login" "user" "/etc"
      (fun _ _ _ => 0) rfl rfl).2.1⟩
